import Mathlib

/-!
Verification of trmnl-spi.go (trmnl-display): a shallow embedding of the
image-to-panel conversion pipeline (resize, luma, threshold, bit-packing) in
displayImage, the refresh-cycle control flow of processNextImage, and the
top-level call structure of main, together with theorems settling the spec
claims about them.
-/

/-- SPI and GPIO pin configuration structure of the source. -/
structure SPIConfig where
  rstPin : Nat
  dcPin : Nat
  csPin : Nat
  busyPin : Nat
  width : Nat
  height : Nat

/-- The concrete configuration for the EPD7in5V2 panel: pins 17, 25, 8, 24 and
resolution 800 by 480, from the spiConfig value in the source. -/
def spiConfig : SPIConfig := ⟨17, 25, 8, 24, 800, 480⟩

/-- Fixed luma threshold used by displayImage (threshold := uint8(128)). -/
def threshold : Nat := 128

/-- Faithful translation of the Go expression
uint8((r*299 + g*587 + b*114) / 1000 >> 8) evaluated in uint32 arithmetic:
each product and sum is reduced mod 2^32 = 4294967296, the quotient by 1000 is
shifted right by 8, and the uint8 conversion truncates mod 256. In Go, / and >>
share one precedence level and associate left, so the shift applies to the
quotient. -/
def grayOf (r g b : Nat) : Nat :=
  (((r % 4294967296 * 299 % 4294967296 + g % 4294967296 * 587 % 4294967296) % 4294967296
      + b % 4294967296 * 114 % 4294967296) % 4294967296 / 1000) >>> 8 % 256

/-- The spec formula for the 8-bit grayscale value, written from the words of
the spec: luma = (r*299 + g*587 + b*114) / 1000, then take the top 8 bits of
the 16-bit result (right-shift by 8), truncated to 8 bits. -/
def lumaSpec (r g b : Nat) : Nat :=
  ((r * 299 + g * 587 + b * 114) / 1000) >>> 8 % 256

/-- Thresholding step of displayImage: in dark mode a gray value below the
threshold becomes 255 (white, paper) and anything else 0 (black, ink); without
dark mode a gray value at or above the threshold becomes 255 and anything else
0. Translated from the if/else on options.DarkMode. -/
def monoPixel (darkMode : Bool) (gray : Nat) : Nat :=
  if darkMode then
    if gray < threshold then 255 else 0
  else
    if gray ≥ threshold then 255 else 0

/-- One step of the bit-packing loop body of displayImage: when the monochrome
pixel at column x of row y is black (value 0), OR the bit at position
7 - (x mod 8) into the byte at index (y*w + x) / 8; otherwise leave the buffer
unchanged. -/
def setPix (w : Nat) (mono : Nat → Nat → Nat) (y : Nat) (buf : List Nat) (x : Nat) : List Nat :=
  if mono x y = 0 then
    buf.set ((y * w + x) / 8) (buf.getD ((y * w + x) / 8) 0 ||| 1 <<< (7 - x % 8))
  else
    buf

/-- Inner loop of the bit-packing pass: iterate setPix over all columns x of
row y. -/
def packRow (w : Nat) (mono : Nat → Nat → Nat) (buf : List Nat) (y : Nat) : List Nat :=
  (List.range w).foldl (setPix w mono y) buf

/-- The bit-packing pass of displayImage: allocate a zero buffer of
w*h/8 bytes and run the nested loops over rows and columns. -/
def packBuffer (w h : Nat) (mono : Nat → Nat → Nat) : List Nat :=
  (List.range h).foldl (packRow w mono) (List.replicate (w * h / 8) 0)

/-- Modelled from the spec: imaging.Resize with the NearestNeighbor filter is a
call into an external library, and per the spec (section 4.1 step 1) it is a
non-interpolating resampling, so every output pixel is a copy of one source
pixel; the choice of source pixel is abstracted by the sampling maps sx and
sy. -/
def resizeNN (src : Nat → Nat → Nat × Nat × Nat) (sx sy : Nat → Nat) (x y : Nat) :
    Nat × Nat × Nat :=
  src (sx x) (sy y)

/-- Go color channel expansion: the RGBA method returns each 8-bit channel
scaled to 16 bits, c * 257, for an opaque pixel. -/
def expand16 (c : Nat) : Nat := c * 257

/-- The 8-bit gray value the conversion loop computes for output pixel (x, y):
the resized pixel has its channels expanded to 16 bits and fed to the luma
formula. -/
def pixelGray (src : Nat → Nat → Nat × Nat × Nat) (sx sy : Nat → Nat) (x y : Nat) : Nat :=
  grayOf (expand16 (resizeNN src sx sy x y).1)
         (expand16 (resizeNN src sx sy x y).2.1)
         (expand16 (resizeNN src sx sy x y).2.2)

/-- The pure conversion part of displayImage: resize the source to panel
resolution, expand channels to 16 bits, compute the luma, threshold it into a
monochrome bitmap, and bit-pack the result. src gives 8-bit RGB channels per
source pixel. -/
def pipeline (darkMode : Bool) (src : Nat → Nat → Nat × Nat × Nat) (sx sy : Nat → Nat) :
    List Nat :=
  packBuffer spiConfig.width spiConfig.height (fun x y =>
    monoPixel darkMode (pixelGray src sx sy x y))

/-- JSON structure returned by the API (TerminalResponse). An absent filename
field decodes to the empty string and an absent refresh_rate decodes to 0,
the Go zero values. -/
structure TerminalResponse where
  imageURL : String
  filename : String
  refreshRate : Int

/-- Outcomes of the effectful steps inside displayImage: opening the file,
decoding the image, and the panel write (display.Display). -/
structure DisplayEnv where
  openOk : Bool
  decodeOk : Bool
  panelWriteOk : Bool

/-- Result of displayImage: the error returned, if any, and whether the panel
write was invoked. -/
structure DisplayResult where
  err : Option String
  frameWritten : Bool

/-- Control flow of displayImage over the outcomes of its effectful steps:
an open or decode failure returns an error before any panel write; the
conversion itself is total and cannot fail; display.Display is invoked exactly
when open and decode succeed, and its failure is returned as an error. -/
def displayImage (env : DisplayEnv) : DisplayResult :=
  if env.openOk then
    if env.decodeOk then
      if env.panelWriteOk then ⟨none, true⟩
      else ⟨some "error displaying image on Waveshare EPD7in5_V2", true⟩
    else ⟨some "error decoding image", false⟩
  else ⟨some "error opening image file", false⟩

/-- Outcomes of the effectful steps of one refresh cycle, in the order
processNextImage performs them: request construction, the metadata fetch, its
HTTP status, JSON decoding, the image download, file creation, the body copy,
and the displayImage steps. -/
structure StepEnv where
  newRequestOk : Bool
  clientDoOk : Bool
  statusCode : Nat
  jsonOk : Bool
  terminal : TerminalResponse
  imgGetOk : Bool
  createOk : Bool
  copyOk : Bool
  dispEnv : DisplayEnv

/-- Environment of one cycle: either the steps run (with given outcomes), or an
unexpected runtime panic interrupts the cycle while performing step k, the
steps being indexed 0 request construction, 1 metadata fetch, 2 status check,
3 JSON decode, 4 image download, 5 file create, 6 body copy, 7 file open,
8 image decode, 9 panel write. -/
inductive CycleEnv where
  | run (e : StepEnv)
  | panicDuring (k : Nat)

/-- Observable result of one call to processNextImage: the message logged (if
any), the number of seconds slept before returning, whether the panel write was
invoked, whether anything escaped the cycle boundary, the resolved download
file name (once computed), and how many times the metadata fetch and the image
download were attempted. -/
structure CycleResult where
  logged : Option String
  sleepSeconds : Int
  frameWritten : Bool
  crashed : Bool
  filenameUsed : Option String
  metadataFetches : Nat
  imageDownloads : Nat

/-- Control flow of processNextImage: every failing step prints a message,
sleeps 60 seconds and returns; a panic anywhere is caught by the deferred
recover, which prints a message, sleeps 60 seconds and returns; the success
path sleeps the normalized refresh rate. The file name falls back to
display.jpg when the server-suggested name is empty. Straight-line code:
no step runs more than once per cycle. -/
def processNextImage (env : CycleEnv) : CycleResult :=
  match env with
  | .panicDuring k =>
      ⟨some "Recovered from panic", 60, decide (9 ≤ k), false, none,
        if 1 ≤ k then 1 else 0, if 4 ≤ k then 1 else 0⟩
  | .run e =>
      if e.newRequestOk then
        if e.clientDoOk then
          if e.statusCode = 200 then
            if e.jsonOk then
              let filename := if e.terminal.filename = "" then "display.jpg"
                              else e.terminal.filename
              if e.imgGetOk then
                if e.createOk then
                  if e.copyOk then
                    match (displayImage e.dispEnv).err with
                    | some m =>
                        ⟨some ("Error displaying image: " ++ m), 60,
                          (displayImage e.dispEnv).frameWritten, false, some filename, 1, 1⟩
                    | none =>
                        ⟨none,
                          if e.terminal.refreshRate ≤ 0 then 60 else e.terminal.refreshRate,
                          true, false, some filename, 1, 1⟩
                  else ⟨some "Error saving image", 60, false, false, some filename, 1, 1⟩
                else ⟨some "Error creating file", 60, false, false, some filename, 1, 1⟩
              else ⟨some "Error downloading image", 60, false, false, some filename, 1, 1⟩
            else ⟨some "Error parsing JSON", 60, false, false, none, 1, 0⟩
          else ⟨some "Error fetching display: status code", 60, false, false, none, 1, 0⟩
        else ⟨some "Error fetching display", 60, false, false, none, 1, 0⟩
      else ⟨some "Error creating request", 60, false, false, none, 0, 0⟩

/-- All steps of a cycle succeed. -/
def isSuccessEnv (e : StepEnv) : Prop :=
  e.newRequestOk = true ∧ e.clientDoOk = true ∧ e.statusCode = 200 ∧ e.jsonOk = true ∧
    e.imgGetOk = true ∧ e.createOk = true ∧ e.copyOk = true ∧ e.dispEnv.openOk = true ∧
    e.dispEnv.decodeOk = true ∧ e.dispEnv.panelWriteOk = true

/-- Some step of the cycle fails, or a panic interrupts it. -/
def isFailureEnv : CycleEnv → Prop
  | .panicDuring _ => True
  | .run e =>
      e.newRequestOk = false ∨ e.clientDoOk = false ∨ e.statusCode ≠ 200 ∨ e.jsonOk = false ∨
        e.imgGetOk = false ∨ e.createOk = false ∨ e.copyOk = false ∨
        e.dispEnv.openOk = false ∨ e.dispEnv.decodeOk = false ∨ e.dispEnv.panelWriteOk = false

/-- The cycle fails at a point strictly before the panel-write step. -/
def failureBeforePanelWrite : CycleEnv → Prop
  | .panicDuring k => k < 9
  | .run e =>
      e.newRequestOk = false ∨ e.clientDoOk = false ∨ e.statusCode ≠ 200 ∨ e.jsonOk = false ∨
        e.imgGetOk = false ∨ e.createOk = false ∨ e.copyOk = false ∨
        e.dispEnv.openOk = false ∨ e.dispEnv.decodeOk = false

/-- The sequence of top-level operations main performs, in order. -/
inductive MainStep where
  | parseArgs
  | initDisplayCall
  | homeDirLookup
  | mkdirConfig
  | loadConfigCall
  | envKeyFallback
  | mkdirTemp
  | clearDisplayCall
  | displayLoop
  | installSignalHandlers
  deriving DecidableEq

/-- The top-level calls performed by main on the successful initialization
path, in order, translated from the body of main (lines 73-118 of the source).
The function setupSignalHandling (lines 148-158), which would install the
handler goroutine that calls cleanupDisplay and hence display.Sleep, does not
appear: main never calls it, nor does any other function. -/
def mainSteps : List MainStep :=
  [.parseArgs, .initDisplayCall, .homeDirLookup, .mkdirConfig, .loadConfigCall,
    .envKeyFallback, .mkdirTemp, .clearDisplayCall, .displayLoop]

/-- A handler for SIGINT, SIGTERM and SIGHUP that puts the panel to sleep is
installed exactly when main performs the installSignalHandlers step. -/
def signalHandlerInstalled : Bool :=
  decide (MainStep.installSignalHandlers ∈ mainSteps)

/-- The panel sleep sequence runs on a termination signal exactly when a signal
handler was installed: with no handler registered, the Go runtime terminates
the process on the signal directly, deferred calls such as the deferred
cleanupDisplay in main do not run, and main never returns from its infinite
display loop. -/
def panelSleepsOnSignal : Bool := signalHandlerInstalled

/-- Timeout in seconds of the HTTP client used for the metadata fetch: the
source constructs a client with Timeout 30 * time.Second (line 178). -/
def metadataClientTimeoutSecs : Nat := 30

/-- Timeout in seconds of the HTTP client used for the image download: the
source calls http.Get (line 207), which uses http.DefaultClient, whose Timeout
field has the zero value 0, meaning no timeout at all. -/
def imageClientTimeoutSecs : Nat := 0

/-- A client timeout value is bounded when it is finite and nonzero; in Go a
zero Timeout field means the client never times out. -/
def boundedTimeout (secs : Nat) : Prop := 0 < secs

/-- C1: the claim asserts the signal-handling path that puts the panel to
sleep is installed and reachable in every execution; in the code the function
setupSignalHandling is never called from main (or anywhere else), so no
handler is installed and the panel sleep sequence does not run when a
termination signal arrives during the display loop. -/
theorem main_never_installs_signal_handler :
    signalHandlerInstalled = false ∧ panelSleepsOnSignal = false := by
  constructor <;> decide

/-- C3 counterexample: it is not the case that both network requests of a
cycle are issued through a client with a bounded (finite, nonzero) timeout:
the image download client has timeout 0. -/
theorem image_download_timeout_unbounded :
    ¬ (boundedTimeout metadataClientTimeoutSecs ∧ boundedTimeout imageClientTimeoutSecs) := by
  intro h
  have h2 : (0 : Nat) < 0 := h.2
  omega

/-- C3 amended: the metadata fetch is issued through a client with a bounded
30-second timeout, but the image download is issued through the default
client, whose timeout is 0, i.e. unbounded. -/
theorem request_timeouts :
    metadataClientTimeoutSecs = 30 ∧ boundedTimeout metadataClientTimeoutSecs ∧
      imageClientTimeoutSecs = 0 ∧ ¬ boundedTimeout imageClientTimeoutSecs := by
  refine ⟨rfl, ?_, rfl, ?_⟩
  · show (0 : Nat) < 30
    omega
  · intro h
    have h2 : (0 : Nat) < 0 := h
    omega

/-- C4: for 16-bit-expanded channel values r, g, b, each at most 65535, the
8-bit grayscale value computed by the code in uint32 arithmetic equals the
spec formula ((r*299 + g*587 + b*114) / 1000) right-shifted by 8 and
truncated to 8 bits, bit for bit: no intermediate value overflows uint32. -/
theorem luma_matches_spec (r g b : Nat) (hr : r ≤ 65535) (hg : g ≤ 65535)
    (hb : b ≤ 65535) : grayOf r g b = lumaSpec r g b := by
  unfold grayOf lumaSpec
  have h1 : r % 4294967296 = r := Nat.mod_eq_of_lt (by omega)
  have h2 : g % 4294967296 = g := Nat.mod_eq_of_lt (by omega)
  have h3 : b % 4294967296 = b := Nat.mod_eq_of_lt (by omega)
  rw [h1, h2, h3]
  have h4 : r * 299 % 4294967296 = r * 299 := Nat.mod_eq_of_lt (by omega)
  have h5 : g * 587 % 4294967296 = g * 587 := Nat.mod_eq_of_lt (by omega)
  have h6 : b * 114 % 4294967296 = b * 114 := Nat.mod_eq_of_lt (by omega)
  rw [h4, h5, h6]
  have h7 : (r * 299 + g * 587) % 4294967296 = r * 299 + g * 587 :=
    Nat.mod_eq_of_lt (by omega)
  rw [h7]
  have h8 : (r * 299 + g * 587 + b * 114) % 4294967296 = r * 299 + g * 587 + b * 114 :=
    Nat.mod_eq_of_lt (by omega)
  rw [h8]

/-- C4 witness: the theorem applied at the extreme concrete input
r = g = b = 65535. -/
theorem luma_matches_spec_witness : grayOf 65535 65535 65535 = lumaSpec 65535 65535 65535 :=
  luma_matches_spec 65535 65535 65535 (by decide) (by decide) (by decide)

/-- C5: with invert off, a gray value of at least 128 maps to paper (255) and
below 128 to ink (0); with invert on the polarity flips; and gray 127 and
gray 128 land on opposite sides of the threshold with invert off. -/
theorem threshold_polarity (gray : Nat) :
    (monoPixel false gray = 255 ↔ 128 ≤ gray) ∧
    (monoPixel false gray = 0 ↔ gray < 128) ∧
    (monoPixel true gray = 255 ↔ gray < 128) ∧
    (monoPixel true gray = 0 ↔ 128 ≤ gray) ∧
    monoPixel false 127 = 0 ∧ monoPixel false 128 = 255 := by
  refine ⟨?_, ?_, ?_, ?_, by decide, by decide⟩
  · rw [show monoPixel false gray = if 128 ≤ gray then 255 else 0 from rfl]
    split <;> omega
  · rw [show monoPixel false gray = if 128 ≤ gray then 255 else 0 from rfl]
    split <;> omega
  · rw [show monoPixel true gray = if gray < 128 then 255 else 0 from rfl]
    split <;> omega
  · rw [show monoPixel true gray = if gray < 128 then 255 else 0 from rfl]
    split <;> omega

/-- C2: on every failing cycle environment, the cycle logs a message, sleeps
exactly 60 seconds, never lets the failure escape the cycle boundary, attempts
the metadata fetch and the image download at most once each, and, when the
failure occurs before the panel-write step, never invokes the panel write. -/
theorem cycle_failure_contract (env : CycleEnv) (h : isFailureEnv env) :
    (processNextImage env).logged.isSome = true ∧
    (processNextImage env).sleepSeconds = 60 ∧
    (processNextImage env).crashed = false ∧
    (processNextImage env).metadataFetches ≤ 1 ∧
    (processNextImage env).imageDownloads ≤ 1 ∧
    (failureBeforePanelWrite env → (processNextImage env).frameWritten = false) := by
  cases env with
  | panicDuring k =>
      refine ⟨rfl, rfl, rfl, ?_, ?_, ?_⟩
      · show (if 1 ≤ k then 1 else 0) ≤ 1
        split <;> omega
      · show (if 4 ≤ k then 1 else 0) ≤ 1
        split <;> omega
      · intro hk
        replace hk : k < 9 := hk
        show decide (9 ≤ k) = false
        exact decide_eq_false (by omega)
  | run e =>
      obtain ⟨ok1, ok2, code, ok3, tm, ok4, ok5, ok6, disp⟩ := e
      obtain ⟨ok7, ok8, ok9⟩ := disp
      cases ok1 with
      | false => exact ⟨rfl, rfl, rfl, Nat.zero_le 1, Nat.zero_le 1, fun _ => rfl⟩
      | true =>
      cases ok2 with
      | false => exact ⟨rfl, rfl, rfl, Nat.le_refl 1, Nat.zero_le 1, fun _ => rfl⟩
      | true =>
      by_cases hsc : code = 200
      · subst hsc
        cases ok3 with
        | false => exact ⟨rfl, rfl, rfl, Nat.le_refl 1, Nat.zero_le 1, fun _ => rfl⟩
        | true =>
        cases ok4 with
        | false => exact ⟨rfl, rfl, rfl, Nat.le_refl 1, Nat.le_refl 1, fun _ => rfl⟩
        | true =>
        cases ok5 with
        | false => exact ⟨rfl, rfl, rfl, Nat.le_refl 1, Nat.le_refl 1, fun _ => rfl⟩
        | true =>
        cases ok6 with
        | false => exact ⟨rfl, rfl, rfl, Nat.le_refl 1, Nat.le_refl 1, fun _ => rfl⟩
        | true =>
        cases ok7 with
        | false => exact ⟨rfl, rfl, rfl, Nat.le_refl 1, Nat.le_refl 1, fun _ => rfl⟩
        | true =>
        cases ok8 with
        | false => exact ⟨rfl, rfl, rfl, Nat.le_refl 1, Nat.le_refl 1, fun _ => rfl⟩
        | true =>
        cases ok9 with
        | false =>
            refine ⟨rfl, rfl, rfl, Nat.le_refl 1, Nat.le_refl 1, ?_⟩
            intro hf
            rcases hf with hf | hf | hf | hf | hf | hf | hf | hf | hf <;> simp at hf
        | true =>
            rcases h with hf | hf | hf | hf | hf | hf | hf | hf | hf | hf <;> simp at hf
      · have hred : processNextImage (.run ⟨true, true, code, ok3, tm, ok4, ok5, ok6,
            ⟨ok7, ok8, ok9⟩⟩) =
            ⟨some "Error fetching display: status code", 60, false, false, none, 1, 0⟩ := by
          simp [processNextImage, hsc]
        rw [hred]
        exact ⟨rfl, rfl, rfl, Nat.le_refl 1, Nat.zero_le 1, fun _ => rfl⟩

/-- C2 witness: the failure contract applied to the concrete environment in
which request construction fails. -/
theorem cycle_failure_contract_witness :
    (processNextImage (.run ⟨false, true, 200, true, ⟨"", "", 0⟩, true, true, true,
        ⟨true, true, true⟩⟩)).logged.isSome = true ∧
    (processNextImage (.run ⟨false, true, 200, true, ⟨"", "", 0⟩, true, true, true,
        ⟨true, true, true⟩⟩)).sleepSeconds = 60 ∧
    (processNextImage (.run ⟨false, true, 200, true, ⟨"", "", 0⟩, true, true, true,
        ⟨true, true, true⟩⟩)).crashed = false ∧
    (processNextImage (.run ⟨false, true, 200, true, ⟨"", "", 0⟩, true, true, true,
        ⟨true, true, true⟩⟩)).metadataFetches ≤ 1 ∧
    (processNextImage (.run ⟨false, true, 200, true, ⟨"", "", 0⟩, true, true, true,
        ⟨true, true, true⟩⟩)).imageDownloads ≤ 1 ∧
    (failureBeforePanelWrite (.run ⟨false, true, 200, true, ⟨"", "", 0⟩, true, true, true,
        ⟨true, true, true⟩⟩) →
      (processNextImage (.run ⟨false, true, 200, true, ⟨"", "", 0⟩, true, true, true,
        ⟨true, true, true⟩⟩)).frameWritten = false) :=
  cycle_failure_contract _ (Or.inl rfl)

/-- C8: on a fully successful cycle, the sleep interval equals the refresh
rate from the metadata when that rate is positive, and equals the 60-second
default when the rate is zero or negative (an absent field decodes to 0). -/
theorem refresh_rate_normalization (e : StepEnv) (h : isSuccessEnv e) :
    (0 < e.terminal.refreshRate →
      (processNextImage (.run e)).sleepSeconds = e.terminal.refreshRate) ∧
    (e.terminal.refreshRate ≤ 0 → (processNextImage (.run e)).sleepSeconds = 60) := by
  obtain ⟨h1, h2, h3, h4, h5, h6, h7, h8, h9, h10⟩ := h
  constructor <;> intro hr <;>
    simp [processNextImage, displayImage, h1, h2, h3, h4, h5, h6, h7, h8, h9, h10] <;>
    omega

/-- C8 witness: a successful cycle with refresh rate 120 sleeps 120 seconds,
and one with refresh rate 0 sleeps the 60-second default. -/
theorem refresh_rate_normalization_witness :
    (processNextImage (.run ⟨true, true, 200, true, ⟨"http://x/1.png", "", 120⟩, true, true,
        true, ⟨true, true, true⟩⟩)).sleepSeconds = 120 ∧
    (processNextImage (.run ⟨true, true, 200, true, ⟨"http://x/1.png", "", 0⟩, true, true,
        true, ⟨true, true, true⟩⟩)).sleepSeconds = 60 :=
  ⟨(refresh_rate_normalization _ ⟨rfl, rfl, rfl, rfl, rfl, rfl, rfl, rfl, rfl, rfl⟩).1
      (by decide),
    (refresh_rate_normalization _ ⟨rfl, rfl, rfl, rfl, rfl, rfl, rfl, rfl, rfl, rfl⟩).2
      (by decide)⟩

/-- C9: on a successful cycle, the target file name for the download equals
the server-suggested name when that name is nonempty, and equals the fixed
fallback display.jpg when the suggested name is empty (an absent field decodes
to the empty string). -/
theorem filename_fallback (e : StepEnv) (h : isSuccessEnv e) :
    (e.terminal.filename = "" →
      (processNextImage (.run e)).filenameUsed = some "display.jpg") ∧
    (e.terminal.filename ≠ "" →
      (processNextImage (.run e)).filenameUsed = some e.terminal.filename) := by
  obtain ⟨h1, h2, h3, h4, h5, h6, h7, h8, h9, h10⟩ := h
  constructor <;> intro hf <;>
    simp [processNextImage, displayImage, h1, h2, h3, h4, h5, h6, h7, h8, h9, h10, hf]

/-- C9 witness: an empty suggested name resolves to display.jpg and the
nonempty name photo.png passes through. -/
theorem filename_fallback_witness :
    (processNextImage (.run ⟨true, true, 200, true, ⟨"http://x/1.png", "", 30⟩, true, true,
        true, ⟨true, true, true⟩⟩)).filenameUsed = some "display.jpg" ∧
    (processNextImage (.run ⟨true, true, 200, true, ⟨"http://x/1.png", "photo.png", 30⟩,
        true, true, true, ⟨true, true, true⟩⟩)).filenameUsed = some "photo.png" :=
  ⟨(filename_fallback _ ⟨rfl, rfl, rfl, rfl, rfl, rfl, rfl, rfl, rfl, rfl⟩).1 rfl,
    (filename_fallback _ ⟨rfl, rfl, rfl, rfl, rfl, rfl, rfl, rfl, rfl, rfl⟩).2
      (by decide)⟩

/-- Reading back an element just written within bounds. -/
theorem bufGet_set_self (l : List Nat) (i v : Nat) (h : i < l.length) :
    (l.set i v).getD i 0 = v := by
  simp [List.getD_eq_getElem?_getD, List.getElem?_set_self h]

/-- Reading an element other than the one written. -/
theorem bufGet_set_ne (l : List Nat) (i j v : Nat) (h : i ≠ j) :
    (l.set i v).getD j 0 = l.getD j 0 := by
  simp [List.getD_eq_getElem?_getD, List.getElem?_set_ne h]

/-- Every read from the all-zero buffer yields 0, in or out of range. -/
theorem bufGet_replicate (n i : Nat) : (List.replicate n (0 : Nat)).getD i 0 = 0 := by
  simp only [List.getD_eq_getElem?_getD, List.getElem?_replicate]
  split <;> rfl

/-- setPix preserves the buffer length. -/
theorem length_setPix (w : Nat) (mono : Nat → Nat → Nat) (y x : Nat) (buf : List Nat) :
    (setPix w mono y buf x).length = buf.length := by
  unfold setPix
  split
  · exact List.length_set buf _ _
  · rfl

/-- Folding setPix over any column list preserves the buffer length. -/
theorem length_foldl_setPix (w : Nat) (mono : Nat → Nat → Nat) (y : Nat) :
    ∀ (l : List Nat) (buf : List Nat), (l.foldl (setPix w mono y) buf).length = buf.length := by
  intro l
  induction l with
  | nil => intro buf; rfl
  | cons a t ih => intro buf; rw [List.foldl_cons, ih, length_setPix]

/-- packRow preserves the buffer length. -/
theorem length_packRow (w : Nat) (mono : Nat → Nat → Nat) (buf : List Nat) (y : Nat) :
    (packRow w mono buf y).length = buf.length :=
  length_foldl_setPix w mono y (List.range w) buf

/-- Folding packRow over any row list preserves the buffer length. -/
theorem length_foldl_packRow (w : Nat) (mono : Nat → Nat → Nat) :
    ∀ (rows : List Nat) (buf : List Nat),
      (rows.foldl (packRow w mono) buf).length = buf.length := by
  intro rows
  induction rows with
  | nil => intro buf; rfl
  | cons a t ih => intro buf; rw [List.foldl_cons, ih, length_packRow]

/-- The packed buffer has exactly w*h/8 bytes. -/
theorem packBuffer_length (w h : Nat) (mono : Nat → Nat → Nat) :
    (packBuffer w h mono).length = w * h / 8 := by
  unfold packBuffer
  rw [length_foldl_packRow, List.length_replicate]

/-- Bit-level effect of one setPix step: bit j of byte i is set afterwards
exactly when it was set before, or this pixel is ink, lands in byte i (within
bounds) and in bit position j. -/
theorem setPix_bit (w : Nat) (mono : Nat → Nat → Nat) (y x : Nat) (buf : List Nat)
    (i j : Nat) :
    (((setPix w mono y buf x).getD i 0).testBit j = true) ↔
      (((buf.getD i 0).testBit j = true) ∨
        (mono x y = 0 ∧ (y * w + x) / 8 = i ∧ i < buf.length ∧ j = 7 - x % 8)) := by
  unfold setPix
  by_cases hm : mono x y = 0
  · rw [if_pos hm]
    by_cases hb : (y * w + x) / 8 = i
    · subst hb
      by_cases hl : (y * w + x) / 8 < buf.length
      · rw [bufGet_set_self _ _ _ hl, Nat.testBit_or]
        have hbit : (1 <<< (7 - x % 8)).testBit j = decide (j = 7 - x % 8) := by
          rw [Nat.one_shiftLeft]
          by_cases hj : 7 - x % 8 = j
          · subst hj
            simp [Nat.testBit_two_pow_self]
          · rw [Nat.testBit_two_pow_of_ne hj]
            simp [Ne.symm hj]
        rw [hbit]
        constructor
        · intro hor
          rcases (Bool.or_eq_true _ _).mp hor with h1 | h1
          · exact Or.inl h1
          · exact Or.inr ⟨hm, rfl, hl, of_decide_eq_true h1⟩
        · intro hor
          rcases hor with h1 | ⟨_, _, _, hj⟩
          · exact (Bool.or_eq_true _ _).mpr (Or.inl h1)
          · exact (Bool.or_eq_true _ _).mpr (Or.inr (decide_eq_true hj))
      · rw [List.set_eq_of_length_le (Nat.le_of_not_lt hl)]
        constructor
        · exact Or.inl
        · rintro (h1 | ⟨_, _, hl2, _⟩)
          · exact h1
          · exact absurd hl2 hl
    · rw [bufGet_set_ne _ _ _ _ hb]
      constructor
      · exact Or.inl
      · rintro (h1 | ⟨_, hb2, _, _⟩)
        · exact h1
        · exact absurd hb2 hb
  · rw [if_neg hm]
    constructor
    · exact Or.inl
    · rintro (h1 | ⟨hm2, _, _, _⟩)
      · exact h1
      · exact absurd hm2 hm

/-- Bit-level effect of folding setPix over a list of columns of row y. -/
theorem foldl_setPix_bit (w : Nat) (mono : Nat → Nat → Nat) (y : Nat) :
    ∀ (l : List Nat) (buf : List Nat) (i j : Nat),
      (((l.foldl (setPix w mono y) buf).getD i 0).testBit j = true) ↔
        (((buf.getD i 0).testBit j = true) ∨
          (∃ x ∈ l, mono x y = 0 ∧ (y * w + x) / 8 = i ∧ i < buf.length ∧ j = 7 - x % 8)) := by
  intro l
  induction l with
  | nil => intro buf i j; simp
  | cons a t ih =>
      intro buf i j
      rw [List.foldl_cons, ih, setPix_bit, length_setPix]
      constructor
      · rintro ((h1 | hcond) | ⟨x, hx, hrest⟩)
        · exact Or.inl h1
        · exact Or.inr ⟨a, List.mem_cons_self a t, hcond⟩
        · exact Or.inr ⟨x, List.mem_cons_of_mem a hx, hrest⟩
      · rintro (h1 | ⟨x, hx, hrest⟩)
        · exact Or.inl (Or.inl h1)
        · rcases List.mem_cons.mp hx with rfl | hx2
          · exact Or.inl (Or.inr hrest)
          · exact Or.inr ⟨x, hx2, hrest⟩

/-- Bit-level effect of one packRow pass. -/
theorem packRow_bit (w : Nat) (mono : Nat → Nat → Nat) (buf : List Nat) (y i j : Nat) :
    (((packRow w mono buf y).getD i 0).testBit j = true) ↔
      (((buf.getD i 0).testBit j = true) ∨
        (∃ x, x < w ∧ mono x y = 0 ∧ (y * w + x) / 8 = i ∧ i < buf.length ∧ j = 7 - x % 8)) := by
  unfold packRow
  rw [foldl_setPix_bit]
  constructor
  · rintro (h1 | ⟨x, hx, hrest⟩)
    · exact Or.inl h1
    · exact Or.inr ⟨x, List.mem_range.mp hx, hrest⟩
  · rintro (h1 | ⟨x, hx, hrest⟩)
    · exact Or.inl h1
    · exact Or.inr ⟨x, List.mem_range.mpr hx, hrest⟩

/-- Bit-level effect of folding packRow over a list of rows. -/
theorem foldl_packRow_bit (w : Nat) (mono : Nat → Nat → Nat) :
    ∀ (rows : List Nat) (buf : List Nat) (i j : Nat),
      (((rows.foldl (packRow w mono) buf).getD i 0).testBit j = true) ↔
        (((buf.getD i 0).testBit j = true) ∨
          (∃ y ∈ rows, ∃ x, x < w ∧ mono x y = 0 ∧ (y * w + x) / 8 = i ∧
            i < buf.length ∧ j = 7 - x % 8)) := by
  intro rows
  induction rows with
  | nil => intro buf i j; simp
  | cons a t ih =>
      intro buf i j
      rw [List.foldl_cons, ih, packRow_bit, length_packRow]
      constructor
      · rintro ((h1 | hcond) | ⟨y, hy, hrest⟩)
        · exact Or.inl h1
        · exact Or.inr ⟨a, List.mem_cons_self a t, hcond⟩
        · exact Or.inr ⟨y, List.mem_cons_of_mem a hy, hrest⟩
      · rintro (h1 | ⟨y, hy, hrest⟩)
        · exact Or.inl (Or.inl h1)
        · rcases List.mem_cons.mp hy with rfl | hy2
          · exact Or.inl (Or.inr hrest)
          · exact Or.inr ⟨y, hy2, hrest⟩

/-- Bit-level characterization of the full packed buffer: bit j of byte i is
set exactly when some in-range pixel is ink, lands in byte i (within the
w*h/8 bytes) and in bit position j. -/
theorem packBuffer_bit (w h : Nat) (mono : Nat → Nat → Nat) (i j : Nat) :
    (((packBuffer w h mono).getD i 0).testBit j = true) ↔
      (∃ y, y < h ∧ ∃ x, x < w ∧ mono x y = 0 ∧ (y * w + x) / 8 = i ∧
        i < w * h / 8 ∧ j = 7 - x % 8) := by
  unfold packBuffer
  rw [foldl_packRow_bit]
  rw [List.length_replicate, bufGet_replicate]
  simp only [Nat.zero_testBit, Bool.false_eq_true, false_or, List.mem_range]

/-- Bits at positions 8 and above are never set in any packed byte. -/
theorem packBuffer_bit_high (w h : Nat) (mono : Nat → Nat → Nat) (i j : Nat) (hj : 8 ≤ j) :
    ((packBuffer w h mono).getD i 0).testBit j = false := by
  rw [← Bool.not_eq_true, packBuffer_bit]
  rintro ⟨y, hy, x, hx, _, _, _, hbit⟩
  omega

/-- Every packed byte is an 8-bit value. -/
theorem packBuffer_byte_lt (w h : Nat) (mono : Nat → Nat → Nat) (i : Nat) :
    (packBuffer w h mono).getD i 0 < 256 := by
  have h2 : (packBuffer w h mono).getD i 0 = (packBuffer w h mono).getD i 0 % 2 ^ 8 := by
    apply Nat.eq_of_testBit_eq
    intro k
    rw [Nat.testBit_mod_two_pow]
    by_cases hk : k < 8
    · simp [hk]
    · rw [packBuffer_bit_high w h mono i k (by omega)]
      simp [hk]
  rw [h2]
  exact Nat.mod_lt _ (by norm_num)

/-- At the 800 by 480 reference geometry, bit j of byte i (for i < 48000 and
j < 8) records exactly the ink state of the unique pixel whose linear index is
8*i + (7 - j). -/
theorem packBuffer_bit_800 (mono : Nat → Nat → Nat) (i j : Nat) (hi : i < 48000)
    (hj : j < 8) :
    ((packBuffer 800 480 mono).getD i 0).testBit j =
      decide (mono ((8 * i + (7 - j)) % 800) ((8 * i + (7 - j)) / 800) = 0) := by
  by_cases hm : mono ((8 * i + (7 - j)) % 800) ((8 * i + (7 - j)) / 800) = 0
  · rw [decide_eq_true hm]
    rw [packBuffer_bit]
    exact ⟨(8 * i + (7 - j)) / 800, by omega, (8 * i + (7 - j)) % 800, by omega, hm,
      by omega, by omega, by omega⟩
  · rw [decide_eq_false hm]
    rw [← Bool.not_eq_true, packBuffer_bit]
    rintro ⟨y, hy, x, hx, hm2, hbyte, _, hbit⟩
    have hx2 : (8 * i + (7 - j)) % 800 = x := by omega
    have hy2 : (8 * i + (7 - j)) / 800 = y := by omega
    rw [hx2, hy2] at hm
    exact hm hm2

/-- The byte 255 has exactly its low eight bits set. -/
theorem testBit_255_eq (k : Nat) : Nat.testBit 255 k = decide (k < 8) := by
  rw [show (255 : Nat) = 2 ^ 8 - 1 from rfl, Nat.testBit_two_pow_sub_one]

/-- Unfolding the pipeline at the reference geometry. -/
theorem pipeline_eq (d : Bool) (src : Nat → Nat → Nat × Nat × Nat) (sx sy : Nat → Nat) :
    pipeline d src sx sy =
      packBuffer 800 480 (fun x y => monoPixel d (pixelGray src sx sy x y)) := rfl

/-- C6: for every monochrome bitmap at the 800 by 480 panel resolution, the
packed frame has exactly 800*480/8 = 48000 bytes, the pixel at column x of
row y occupies byte (y*800 + x)/8 at bit position 7 - (x mod 8), that bit is
set exactly when the pixel is ink (gray value 0), and every byte is an 8-bit
value, so no other bit is ever set. -/
theorem packed_frame_layout (mono : Nat → Nat → Nat) (x y : Nat) (hx : x < 800)
    (hy : y < 480) :
    (packBuffer 800 480 mono).length = 48000 ∧
    ((((packBuffer 800 480 mono).getD ((y * 800 + x) / 8) 0).testBit (7 - x % 8) = true) ↔
      mono x y = 0) ∧
    (∀ i, (packBuffer 800 480 mono).getD i 0 < 256) := by
  refine ⟨?_, ?_, fun i => packBuffer_byte_lt 800 480 mono i⟩
  · rw [packBuffer_length]
  · rw [packBuffer_bit_800 mono _ _ (by omega) (by omega)]
    have hx2 : (8 * ((y * 800 + x) / 8) + (7 - (7 - x % 8))) % 800 = x := by omega
    have hy2 : (8 * ((y * 800 + x) / 8) + (7 - (7 - x % 8))) / 800 = y := by omega
    rw [hx2, hy2]
    simp only [decide_eq_true_eq]

/-- C6 witness: the layout theorem applied to the all-ink bitmap at pixel
x = 5, y = 7. -/
theorem packed_frame_layout_witness :
    (packBuffer 800 480 (fun _ _ => 0)).length = 48000 ∧
    ((((packBuffer 800 480 (fun _ _ => 0)).getD ((7 * 800 + 5) / 8) 0).testBit (7 - 5 % 8)
        = true) ↔ (0 : Nat) = 0) ∧
    (∀ i, (packBuffer 800 480 (fun _ _ => 0)).getD i 0 < 256) :=
  packed_frame_layout (fun _ _ => 0) 5 7 (by omega) (by omega)

/-- Evaluating the per-pixel gray value on a uniform source: every output
pixel sees the same expanded channels, whatever the sampling maps do. -/
theorem pixelGray_const (c1 c2 c3 : Nat) (sx sy : Nat → Nat) (a b : Nat) :
    pixelGray (fun _ _ => (c1, c2, c3)) sx sy a b =
      grayOf (c1 * 257) (c2 * 257) (c3 * 257) := by
  simp only [pixelGray, resizeNN, expand16]

/-- C7: with invert off, a uniformly black 800 by 480 source yields the frame
in which every byte is 0xFF = 255, and a uniformly white source yields the
frame in which every byte is 0x00 = 0, for every nearest-neighbor sampling. -/
theorem uniform_black_white_frames (sx sy : Nat → Nat) (i : Nat) (hi : i < 48000) :
    (pipeline false (fun _ _ => (0, 0, 0)) sx sy).getD i 0 = 255 ∧
    (pipeline false (fun _ _ => (255, 255, 255)) sx sy).getD i 0 = 0 := by
  constructor
  · rw [pipeline_eq]
    apply Nat.eq_of_testBit_eq
    intro k
    by_cases hk : k < 8
    · rw [packBuffer_bit_800 _ i k hi hk, testBit_255_eq, decide_eq_true hk]
      rw [decide_eq_true_eq]
      show monoPixel false (pixelGray (fun _ _ => (0, 0, 0)) sx sy _ _) = 0
      rw [pixelGray_const]
      decide
    · rw [packBuffer_bit_high 800 480 _ i k (by omega), testBit_255_eq, decide_eq_false hk]
  · rw [pipeline_eq]
    apply Nat.eq_of_testBit_eq
    intro k
    rw [Nat.zero_testBit, ← Bool.not_eq_true, packBuffer_bit]
    rintro ⟨yy, hyy, xx, hxx, hm, _, _, _⟩
    have hm2 : monoPixel false (pixelGray (fun _ _ => (255, 255, 255)) sx sy xx yy) = 0 := hm
    rw [pixelGray_const] at hm2
    exact absurd hm2 (by decide)

/-- C7 witness: the theorem applied with identity sampling maps at byte 0. -/
theorem uniform_black_white_frames_witness :
    (pipeline false (fun _ _ => (0, 0, 0)) (fun n => n) (fun n => n)).getD 0 0 = 255 ∧
    (pipeline false (fun _ _ => (255, 255, 255)) (fun n => n) (fun n => n)).getD 0 0 = 0 :=
  uniform_black_white_frames (fun n => n) (fun n => n) 0 (by omega)

/-- C10: for every source bitmap and sampling, the frame produced in dark mode
is the bitwise complement of the frame produced in normal mode: corresponding
bytes XOR to 255 in every byte position, and the two frames have the same
length. -/
theorem darkmode_frame_complement (src : Nat → Nat → Nat × Nat × Nat) (sx sy : Nat → Nat)
    (i : Nat) (hi : i < 48000) :
    ((pipeline true src sx sy).getD i 0) ^^^ ((pipeline false src sx sy).getD i 0) = 255 ∧
    (pipeline true src sx sy).length = (pipeline false src sx sy).length := by
  constructor
  · rw [pipeline_eq, pipeline_eq]
    apply Nat.eq_of_testBit_eq
    intro k
    rw [Nat.testBit_xor]
    by_cases hk : k < 8
    · rw [packBuffer_bit_800 _ i k hi hk, packBuffer_bit_800 _ i k hi hk,
        testBit_255_eq, decide_eq_true hk]
      have hT : ∀ g : Nat, monoPixel true g = if g < 128 then 255 else 0 := fun _ => rfl
      have hF : ∀ g : Nat, monoPixel false g = if 128 ≤ g then 255 else 0 := fun _ => rfl
      rw [hT, hF]
      split
      · rename_i hg
        rw [if_neg (by omega)]
        rfl
      · rename_i hg
        rw [if_pos (by omega)]
        rfl
    · rw [packBuffer_bit_high 800 480 _ i k (by omega),
        packBuffer_bit_high 800 480 _ i k (by omega), testBit_255_eq, decide_eq_false hk]
      rfl
  · rw [pipeline_eq, pipeline_eq, packBuffer_length, packBuffer_length]

/-- C10 witness: the complement theorem applied to the uniformly black source
with identity sampling at byte 0. -/
theorem darkmode_frame_complement_witness :
    ((pipeline true (fun _ _ => (0, 0, 0)) (fun n => n) (fun n => n)).getD 0 0) ^^^
      ((pipeline false (fun _ _ => (0, 0, 0)) (fun n => n) (fun n => n)).getD 0 0) = 255 ∧
    (pipeline true (fun _ _ => (0, 0, 0)) (fun n => n) (fun n => n)).length =
      (pipeline false (fun _ _ => (0, 0, 0)) (fun n => n) (fun n => n)).length :=
  darkmode_frame_complement (fun _ _ => (0, 0, 0)) (fun n => n) (fun n => n) 0 (by omega)
